import Mathlib

/-!
Verification of the LoRA ViT fine-tuning notebook (`lora.ipynb`).

The notebook fine-tunes a frozen ViT backbone on two image datasets with
low-rank adapters (LoRA) and swaps the adapters at inference time.  This file
gives a shallow embedding of the notebook's orchestration logic: label
mappings, the train/test split, the preprocessing transforms, the adapter
model builder, the training-argument handling, artifact sizes, and the
`predict` inference function.  Transformer internals (attention arithmetic,
backpropagation) are outside the notebook's own code and outside the spec's
scope; the forward pass is embedded as a deterministic function of the
parameters and pixel values, with dropout noise gated by the module's
training flag, which is the level of detail the verified properties need.
-/

set_option maxRecDepth 100000

namespace LoraViT

/-- Insertion into a Python dict represented as an association list: an
existing key has its value replaced in place, a new key is appended at the
end (Python dicts preserve insertion order). -/
def dictInsert {α β : Type} [DecidableEq α] : List (α × β) → α → β → List (α × β)
  | [], k, v => [(k, v)]
  | (k₁, v₁) :: rest, k, v =>
      if k₁ = k then (k₁, v) :: rest else (k₁, v₁) :: dictInsert rest k v

/-- Lookup in a Python dict represented as an association list.  A missing
key yields `none` (a `KeyError` in Python). -/
def dget? {α β : Type} [DecidableEq α] : List (α × β) → α → Option β
  | [], _ => none
  | (k₁, v) :: rest, k => if k₁ = k then some v else dget? rest k

/-- The loop body of `create_label_mappings`: iterates over the class names
with their indices, filling both dictionaries. -/
def clmGo : Nat → List String → List (String × Nat) → List (Nat × String) →
    List (String × Nat) × List (Nat × String)
  | _, [], l2i, i2l => (l2i, i2l)
  | i, s :: rest, l2i, i2l => clmGo (i + 1) rest (dictInsert l2i s i) (dictInsert i2l i s)

/-- `create_label_mappings(dataset)` from the notebook: enumerates
`dataset.features["label"].names` and builds `label2id` (name to index) and
`id2label` (index to name). -/
def create_label_mappings (names : List String) :
    List (String × Nat) × List (Nat × String) :=
  clmGo 0 names [] []

theorem dictInsert_fresh {α β : Type} [DecidableEq α] (d : List (α × β)) (k : α) (v : β)
    (h : k ∉ d.map Prod.fst) : dictInsert d k v = d ++ [(k, v)] := by
  induction d with
  | nil => rfl
  | cons hd tl ih =>
    obtain ⟨k₁, v₁⟩ := hd
    simp only [List.map_cons, List.mem_cons] at h
    push_neg at h
    have hne : ¬ (k₁ = k) := fun hh => h.1 hh.symm
    simp [dictInsert, hne, ih h.2]

theorem clmGo_snd (ns : List String) :
    ∀ (i : Nat) (l2i : List (String × Nat)) (i2l : List (Nat × String)),
      (∀ j ∈ i2l.map Prod.fst, j < i) →
      (clmGo i ns l2i i2l).2 = i2l ++ List.enumFrom i ns := by
  induction ns with
  | nil => intro i l2i i2l _; simp [clmGo]
  | cons hd tl ih =>
    intro i l2i i2l h
    have hfresh : i ∉ i2l.map Prod.fst := fun hin => lt_irrefl i (h i hin)
    have hstep : ∀ j ∈ (dictInsert i2l i hd).map Prod.fst, j < i + 1 := by
      intro j hj
      rw [dictInsert_fresh _ _ _ hfresh] at hj
      simp only [List.map_append, List.mem_append, List.map_cons] at hj
      rcases hj with hj | hj
      · exact Nat.lt_succ_of_lt (h j hj)
      · simp at hj; omega
    rw [clmGo, ih (i + 1) _ _ hstep, dictInsert_fresh _ _ _ hfresh]
    simp [List.enumFrom]

theorem clmGo_eq (ns : List String) :
    ∀ (i : Nat) (l2i : List (String × Nat)) (i2l : List (Nat × String)),
      ns.Nodup → (∀ s ∈ ns, s ∉ l2i.map Prod.fst) →
      (∀ j ∈ i2l.map Prod.fst, j < i) →
      clmGo i ns l2i i2l =
        (l2i ++ (List.enumFrom i ns).map (fun q => (q.2, q.1)),
         i2l ++ List.enumFrom i ns) := by
  induction ns with
  | nil => intro i l2i i2l _ _ _; simp [clmGo]
  | cons hd tl ih =>
    intro i l2i i2l hnd hl2i h
    have hfresh : i ∉ i2l.map Prod.fst := fun hin => lt_irrefl i (h i hin)
    have hfresh2 : hd ∉ l2i.map Prod.fst := hl2i hd (List.mem_cons_self hd tl)
    have hstepA : ∀ s ∈ tl, s ∉ (dictInsert l2i hd i).map Prod.fst := by
      intro s hs
      rw [dictInsert_fresh _ _ _ hfresh2]
      simp only [List.map_append, List.mem_append]
      rintro (hin | hin)
      · exact hl2i s (List.mem_cons_of_mem hd hs) hin
      · simp only [List.map_cons, List.map_nil, List.mem_singleton] at hin
        subst hin
        exact (List.nodup_cons.mp hnd).1 hs
    have hstepB : ∀ j ∈ (dictInsert i2l i hd).map Prod.fst, j < i + 1 := by
      intro j hj
      rw [dictInsert_fresh _ _ _ hfresh] at hj
      simp only [List.map_append, List.mem_append, List.map_cons] at hj
      rcases hj with hj | hj
      · exact Nat.lt_succ_of_lt (h j hj)
      · simp at hj; omega
    rw [clmGo, ih (i + 1) _ _ (List.nodup_cons.mp hnd).2 hstepA hstepB,
        dictInsert_fresh _ _ _ hfresh, dictInsert_fresh _ _ _ hfresh2]
    simp [List.enumFrom]

/-- The `id2label` dictionary produced by `create_label_mappings` is exactly
the enumeration of the class names (no duplicate-name assumption is needed:
the integer keys are always fresh). -/
theorem create_label_mappings_snd (names : List String) :
    (create_label_mappings names).2 = names.enum := by
  have h := clmGo_snd names 0 [] [] (by simp)
  simpa [create_label_mappings, List.enum] using h

/-- On duplicate-free class-name lists `create_label_mappings` produces the
two evident enumeration dictionaries. -/
theorem create_label_mappings_eq (names : List String) (hnd : names.Nodup) :
    create_label_mappings names =
      (names.enum.map (fun q => (q.2, q.1)), names.enum) := by
  have h := clmGo_eq names 0 [] [] hnd (by simp) (by simp)
  simpa [create_label_mappings, List.enum] using h

theorem dget?_enumFrom {α : Type} (ns : List α) [DecidableEq α] :
    ∀ (i k : Nat), dget? (List.enumFrom i ns) k =
      if i ≤ k then ns.get? (k - i) else none := by
  induction ns with
  | nil => intro i k; simp [dget?, List.enumFrom]
  | cons hd tl ih =>
    intro i k
    simp only [List.enumFrom, dget?]
    by_cases hik : i = k
    · subst hik
      simp
    · rw [if_neg hik, ih (i + 1) k]
      by_cases hle : i + 1 ≤ k
      · rw [if_pos hle, if_pos (by omega)]
        have hk : k - i = (k - (i + 1)) + 1 := by omega
        rw [hk]
        rfl
      · rw [if_neg hle, if_neg (by omega)]

/-- Lookup of an integer id in the `id2label` enumeration dictionary. -/
theorem dget?_enum {α : Type} [DecidableEq α] (ns : List α) (k : Nat) :
    dget? ns.enum k = ns.get? k := by
  have h := dget?_enumFrom ns 0 k
  simpa [List.enum] using h

theorem dget?_swap_enumFrom (ns : List String) :
    ∀ (i j : Nat) (nm : String), ns.Nodup → ns.get? j = some nm →
      dget? ((List.enumFrom i ns).map (fun q => (q.2, q.1))) nm = some (i + j) := by
  induction ns with
  | nil => intro i j nm _ hg; simp at hg
  | cons hd tl ih =>
    intro i j nm hnd hg
    simp only [List.enumFrom, List.map_cons, dget?]
    match j with
    | 0 =>
      simp only [List.get?] at hg
      have : hd = nm := by injection hg
      simp [this]
    | j' + 1 =>
      simp only [List.get?] at hg
      have hmem : nm ∈ tl := List.get?_mem hg
      have hne : ¬ (hd = nm) := by
        rintro rfl
        exact (List.nodup_cons.mp hnd).1 hmem
      rw [if_neg hne, ih (i + 1) j' nm (List.nodup_cons.mp hnd).2 hg]
      congr 1
      omega

/-- C4: for every dataset (whose class names are duplicate-free, as the
dataset library's `ClassLabel` feature requires), `create_label_mappings`
returns mutually inverse dictionaries: `label2id` maps the i-th class name to
`i`, `id2label` maps `i` back to the i-th class name, so
`id2label[label2id[name]] = name` for every class name and
`label2id[id2label[i]] = i` for every assigned id. -/
theorem create_label_mappings_mutual_inverse (names : List String) (hnd : names.Nodup) :
    (∀ (j : Nat) (hj : j < names.length),
        dget? (create_label_mappings names).1 (names.get ⟨j, hj⟩) = some j ∧
        dget? (create_label_mappings names).2 j = some (names.get ⟨j, hj⟩)) ∧
    (∀ nm ∈ names, ∃ j, dget? (create_label_mappings names).1 nm = some j ∧
        dget? (create_label_mappings names).2 j = some nm) ∧
    (∀ j : Nat, j < names.length →
        ∃ nm, dget? (create_label_mappings names).2 j = some nm ∧
          dget? (create_label_mappings names).1 nm = some j) := by
  have hfst : (create_label_mappings names).1 =
      names.enum.map (fun q => (q.2, q.1)) := by
    rw [create_label_mappings_eq names hnd]
  have hsnd := create_label_mappings_snd names
  have key : ∀ (j : Nat) (hj : j < names.length),
      dget? (create_label_mappings names).1 (names.get ⟨j, hj⟩) = some j ∧
      dget? (create_label_mappings names).2 j = some (names.get ⟨j, hj⟩) := by
    intro j hj
    have hg : names.get? j = some (names.get ⟨j, hj⟩) := List.get?_eq_get hj
    constructor
    · rw [hfst]
      have h := dget?_swap_enumFrom names 0 j (names.get ⟨j, hj⟩) hnd hg
      simpa [List.enum] using h
    · rw [hsnd, dget?_enum]
      exact hg
  refine ⟨key, ?_, ?_⟩
  · intro nm hnm
    obtain ⟨⟨j, hj⟩, hget⟩ := List.mem_iff_get.mp hnm
    exact ⟨j, by rw [← hget] at *; exact ⟨(key j hj).1, (key j hj).2⟩⟩
  · intro j hj
    exact ⟨names.get ⟨j, hj⟩, (key j hj).2, (key j hj).1⟩

/-- Witness for C4 at a concrete two-class dataset. -/
theorem create_label_mappings_mutual_inverse_witness :
    (∀ (j : Nat) (hj : j < (["cat", "dog"] : List String).length),
        dget? (create_label_mappings ["cat", "dog"]).1
            ((["cat", "dog"] : List String).get ⟨j, hj⟩) = some j ∧
        dget? (create_label_mappings ["cat", "dog"]).2 j =
          some ((["cat", "dog"] : List String).get ⟨j, hj⟩)) ∧
    (∀ nm ∈ (["cat", "dog"] : List String), ∃ j,
        dget? (create_label_mappings ["cat", "dog"]).1 nm = some j ∧
        dget? (create_label_mappings ["cat", "dog"]).2 j = some nm) ∧
    (∀ j : Nat, j < (["cat", "dog"] : List String).length →
        ∃ nm, dget? (create_label_mappings ["cat", "dog"]).2 j = some nm ∧
          dget? (create_label_mappings ["cat", "dog"]).1 nm = some j) :=
  create_label_mappings_mutual_inverse ["cat", "dog"] (by decide)

/-- Scan for `torch.argmax` over the tail of a logits list, carrying the best
value, its index, and the index of the current element.  Ties keep the first
maximal index, as `torch.argmax` documents. -/
def argmaxP : List ℚ → ℚ → Nat → Nat → ℚ × Nat
  | [], best, bi, _ => (best, bi)
  | x :: rest, best, bi, i =>
      if best < x then argmaxP rest x i (i + 1) else argmaxP rest best bi (i + 1)

/-- `logits.argmax(-1).item()`: index of the (first) maximal entry; `0` on the
empty list, which cannot arise from a classification head. -/
def argmaxIdx (l : List ℚ) : Nat :=
  match l with
  | [] => 0
  | x :: rest => (argmaxP rest x 0 1).2

theorem argmaxP_fst (l : List ℚ) :
    ∀ (best : ℚ) (bi i : Nat), (argmaxP l best bi i).1 = l.foldl max best := by
  induction l with
  | nil => intro best bi i; rfl
  | cons x rest ih =>
    intro best bi i
    simp only [argmaxP, List.foldl_cons]
    by_cases h : best < x
    · rw [if_pos h, ih, max_eq_right (le_of_lt h)]
    · rw [if_neg h, ih, max_eq_left (not_lt.mp h)]

theorem foldl_max_init (l : List ℚ) : ∀ b : ℚ, b ≤ l.foldl max b := by
  induction l with
  | nil => intro b; simp
  | cons x rest ih =>
    intro b
    simp only [List.foldl_cons]
    exact le_trans (le_max_left b x) (ih (max b x))

theorem foldl_max_mem (l : List ℚ) : ∀ (b v : ℚ), v ∈ l → v ≤ l.foldl max b := by
  induction l with
  | nil => intro b v hv; simp at hv
  | cons x rest ih =>
    intro b v hv
    simp only [List.foldl_cons]
    rcases List.mem_cons.mp hv with rfl | hv
    · exact le_trans (le_max_right b v) (foldl_max_init rest (max b v))
    · exact ih (max b x) v hv

theorem argmaxP_get (l : List ℚ) :
    ∀ (best : ℚ) (bi i : Nat) (L : List ℚ),
      (∀ k : Nat, L.get? (i + k) = l.get? k) → L.get? bi = some best →
      L.get? ((argmaxP l best bi i).2) = some ((argmaxP l best bi i).1) := by
  induction l with
  | nil => intro best bi i L _ h2; exact h2
  | cons x rest ih =>
    intro best bi i L h1 h2
    have hx : L.get? i = some x := by
      have := h1 0
      simpa using this
    have h1' : ∀ k : Nat, L.get? (i + 1 + k) = rest.get? k := by
      intro k
      have := h1 (k + 1)
      have harith : i + (k + 1) = i + 1 + k := by omega
      rw [harith] at this
      simpa using this
    simp only [argmaxP]
    by_cases h : best < x
    · rw [if_pos h]
      exact ih x i (i + 1) L h1' hx
    · rw [if_neg h]
      exact ih best bi (i + 1) L h1' h2

/-- The entry at the argmax index is the maximum of the logits. -/
theorem argmaxIdx_get? (x : ℚ) (rest : List ℚ) :
    (x :: rest).get? (argmaxIdx (x :: rest)) = some (rest.foldl max x) := by
  have h1 : ∀ k : Nat, (x :: rest).get? (1 + k) = rest.get? k := by
    intro k
    have : 1 + k = k + 1 := by omega
    rw [this]
    rfl
  have h := argmaxP_get rest x 0 1 (x :: rest) h1 rfl
  rw [argmaxP_fst] at h
  exact h

theorem argmaxIdx_lt_length (l : List ℚ) (h : l ≠ []) : argmaxIdx l < l.length := by
  match l, h with
  | x :: rest, _ =>
    have hg := argmaxIdx_get? x rest
    by_contra hlt
    rw [List.get?_eq_none.mpr (not_lt.mp hlt)] at hg
    exact Option.noConfusion hg

theorem argmaxIdx_is_max (l : List ℚ) (h : l ≠ []) :
    ∀ v ∈ l, v ≤ l.getD (argmaxIdx l) 0 := by
  match l, h with
  | x :: rest, _ =>
    intro v hv
    have hg := argmaxIdx_get? x rest
    have hd : (x :: rest).getD (argmaxIdx (x :: rest)) 0 = rest.foldl max x := by
      rw [List.getD_eq_getElem?_getD, ← List.get?_eq_getElem?, hg]
      rfl
    rw [hd]
    rcases List.mem_cons.mp hv with rfl | hv
    · exact foldl_max_init rest v
    · exact foldl_max_mem rest x v hv

/-- The PIL image modes occurring in practice: full colour, greyscale,
palette, and colour with an alpha channel. -/
inductive ImageMode where
  | RGB | L | P | RGBA
deriving DecidableEq

/-- A PIL image: a mode plus flat pixel data. -/
structure Image where
  mode : ImageMode
  data : List Nat
deriving DecidableEq

/-- Drop every fourth (alpha) value of RGBA pixel data. -/
def dropAlpha : List Nat → List Nat
  | r :: g :: b :: _ :: rest => r :: g :: b :: dropAlpha rest
  | l => l

/-- `image.convert("RGB")` from PIL: an RGB image is returned with its pixel
data unchanged; greyscale and palette values are replicated into three
channels; RGBA drops the alpha channel. -/
def convertRGB : Image → Image
  | ⟨ImageMode.RGB, d⟩ => ⟨ImageMode.RGB, d⟩
  | ⟨ImageMode.L, d⟩ => ⟨ImageMode.RGB, d.flatMap (fun v => [v, v, v])⟩
  | ⟨ImageMode.P, d⟩ => ⟨ImageMode.RGB, d.flatMap (fun v => [v, v, v])⟩
  | ⟨ImageMode.RGBA, d⟩ => ⟨ImageMode.RGB, dropAlpha d⟩

theorem convertRGB_mode (img : Image) : (convertRGB img).mode = ImageMode.RGB := by
  obtain ⟨m, d⟩ := img
  cases m <;> rfl

theorem convertRGB_idem (img : Image) : convertRGB (convertRGB img) = convertRGB img := by
  obtain ⟨m, d⟩ := img
  cases m <;> rfl

/-- The image processor configuration supplied with the checkpoint: the edge
length of the model input and the normalisation statistics. -/
structure ImageProcessor where
  height : Nat
  image_mean : ℚ
  image_std : ℚ
deriving DecidableEq

/-- The processor applied in `predict`: crops the (already RGB) pixel data to
the model's input size and normalises with the checkpoint's mean and std.
The resize geometry is abstracted to truncation of the flat pixel list. -/
def processorEncode (p : ImageProcessor) (image : Image) : List ℚ :=
  (image.data.take (3 * p.height * p.height)).map
    (fun v => ((v : ℚ) - p.image_mean) / p.image_std)

/-- The torchvision `preprocess_pipeline` of the notebook (Resize, CenterCrop,
ToTensor, Normalize), with the same abstraction of the geometry. -/
def preprocess_pipeline (p : ImageProcessor) (data : List Nat) : List ℚ :=
  (data.take (3 * p.height * p.height)).map
    (fun v => ((v : ℚ) - p.image_mean) / p.image_std)

/-- The `preprocess(batch)` transform attached to the train and test splits:
converts every image of the batch to RGB and runs the pipeline. -/
def preprocess (p : ImageProcessor) (batch : List Image) : List (List ℚ) :=
  batch.map (fun image => preprocess_pipeline p (convertRGB image).data)

/-- The module paths of the named parameters of the
`google/vit-base-patch16-224-in21k` image-classification model, with the
LoRA modules that `peft` injects on top of a base module. -/
inductive ModuleName where
  | clsToken
  | posEmb
  | patchProj
  | query (layer : Nat)
  | key (layer : Nat)
  | value (layer : Nat)
  | attnOut (layer : Nat)
  | interDense (layer : Nat)
  | outDense (layer : Nat)
  | lnBefore (layer : Nat)
  | lnAfter (layer : Nat)
  | finalLn
  | classifier
  | loraA (base : ModuleName)
  | loraB (base : ModuleName)
deriving DecidableEq

/-- The last dotted component of the module path, which is what the
`target_modules` and `modules_to_save` entries of a `LoraConfig` are matched
against by `peft`. -/
def lastComponent : ModuleName → String
  | ModuleName.clsToken => "cls_token"
  | ModuleName.posEmb => "position_embeddings"
  | ModuleName.patchProj => "projection"
  | ModuleName.query _ => "query"
  | ModuleName.key _ => "key"
  | ModuleName.value _ => "value"
  | ModuleName.attnOut _ => "dense"
  | ModuleName.interDense _ => "dense"
  | ModuleName.outDense _ => "dense"
  | ModuleName.lnBefore _ => "layernorm_before"
  | ModuleName.lnAfter _ => "layernorm_after"
  | ModuleName.finalLn => "layernorm"
  | ModuleName.classifier => "classifier"
  | ModuleName.loraA _ => "lora_A"
  | ModuleName.loraB _ => "lora_B"

/-- A named parameter tensor: owning module, parameter kind within the
module, tensor shape, and its `requires_grad` flag. -/
structure Param where
  module : ModuleName
  kind : String
  shape : List Nat
  grad : Bool
deriving DecidableEq

/-- Number of elements of the parameter tensor. -/
def Param.numel (p : Param) : Nat := p.shape.prod

/-- The named parameters of one ViT-base encoder layer (hidden size 768,
intermediate size 3072), all loaded with `requires_grad = True`. -/
def vitLayerParams (i : Nat) : List Param :=
  [⟨ModuleName.query i, "weight", [768, 768], true⟩,
   ⟨ModuleName.query i, "bias", [768], true⟩,
   ⟨ModuleName.key i, "weight", [768, 768], true⟩,
   ⟨ModuleName.key i, "bias", [768], true⟩,
   ⟨ModuleName.value i, "weight", [768, 768], true⟩,
   ⟨ModuleName.value i, "bias", [768], true⟩,
   ⟨ModuleName.attnOut i, "weight", [768, 768], true⟩,
   ⟨ModuleName.attnOut i, "bias", [768], true⟩,
   ⟨ModuleName.interDense i, "weight", [3072, 768], true⟩,
   ⟨ModuleName.interDense i, "bias", [3072], true⟩,
   ⟨ModuleName.outDense i, "weight", [768, 3072], true⟩,
   ⟨ModuleName.outDense i, "bias", [768], true⟩,
   ⟨ModuleName.lnBefore i, "weight", [768], true⟩,
   ⟨ModuleName.lnBefore i, "bias", [768], true⟩,
   ⟨ModuleName.lnAfter i, "weight", [768], true⟩,
   ⟨ModuleName.lnAfter i, "bias", [768], true⟩]

/-- The named parameters of the `AutoModelForImageClassification` built from
the checkpoint: the ViT-base backbone (12 layers, patch size 16, input
224 by 224, hence 197 positions) plus a classification head whose size is
taken from the label mappings (`ignore_mismatched_sizes=True` reinitialises
it at this size). -/
def backboneParams (numLabels : Nat) : List Param :=
  [⟨ModuleName.clsToken, "data", [1, 1, 768], true⟩,
   ⟨ModuleName.posEmb, "data", [1, 197, 768], true⟩,
   ⟨ModuleName.patchProj, "weight", [768, 3, 16, 16], true⟩,
   ⟨ModuleName.patchProj, "bias", [768], true⟩] ++
  (List.range 12).flatMap vitLayerParams ++
  [⟨ModuleName.finalLn, "weight", [768], true⟩,
   ⟨ModuleName.finalLn, "bias", [768], true⟩,
   ⟨ModuleName.classifier, "weight", [numLabels, 768], true⟩,
   ⟨ModuleName.classifier, "bias", [numLabels], true⟩]

/-- The `LoraConfig` record from the notebook's `build_lora_model`. -/
structure LoraConfigT where
  r : Nat
  lora_alpha : Nat
  target_modules : List String
  lora_dropout : ℚ
  bias : String
  modules_to_save : List String
deriving DecidableEq

/-- The adapter configuration literal of `build_lora_model`. -/
def lora_config : LoraConfigT :=
  { r := 16
    lora_alpha := 16
    target_modules := ["query", "value"]
    lora_dropout := 1 / 10
    bias := "none"
    modules_to_save := ["classifier"] }

/-- Does the module path match one of the configured module name suffixes
(the matching `peft` performs for `target_modules` / `modules_to_save`)? -/
def matchesAny (mods : List String) (m : ModuleName) : Bool :=
  mods.contains (lastComponent m)

/-- The pair of low-rank factors `peft` injects for one adapted linear
module: `lora_A` of shape `r` by in-features and `lora_B` of shape
out-features by `r`, both trainable. -/
def loraPair (r : Nat) (p : Param) : List Param :=
  [⟨ModuleName.loraA p.module, "weight", [r, p.shape.getD 1 0], true⟩,
   ⟨ModuleName.loraB p.module, "weight", [p.shape.getD 0 0, r], true⟩]

/-- `get_peft_model(model, config)`: every base parameter is frozen except a
trainable copy of the `modules_to_save` modules, and a trainable low-rank
pair is injected for the weight of every module matching `target_modules`. -/
def get_peft_model (ps : List Param) (cfg : LoraConfigT) : List Param :=
  ps.map (fun p => { p with grad := matchesAny cfg.modules_to_save p.module }) ++
  (ps.filter
      (fun p => p.kind == "weight" && matchesAny cfg.target_modules p.module)).flatMap
    (loraPair cfg.r)

/-- The `label2id` / `id2label` entries of a model's `PretrainedConfig`. -/
structure ModelConfig where
  label2id : List (String × Nat)
  id2label : List (Nat × String)
deriving DecidableEq

/-- A Hugging Face classification model: its configuration, its named
parameters, and whether its modules are in training mode (`from_pretrained`
returns the model in evaluation mode, so dropout is inactive). -/
structure HFModel where
  config : ModelConfig
  params : List Param
  training : Bool
deriving DecidableEq

/-- The classification head of the model is sized by the `id2label` mapping
of its configuration. -/
def numLabels (m : HFModel) : Nat := m.config.id2label.length

/-- Abstract deterministic dependence of the logits on the model weights. -/
def paramSig (ps : List Param) : ℚ := ((ps.map Param.numel).sum : ℚ)

/-- Abstract dropout noise drawn from the random-number-generator state. -/
def dropoutNoise (rng i : Nat) : ℚ := (((rng + i) % 3 : Nat) : ℚ)

/-- The model's forward pass on one encoded image, producing one logit per
class of the head.  The transformer arithmetic is outside the notebook's
code and outside the spec's scope; what matters for the verified properties
is that the logits are a deterministic function of the weights and the
pixel values, with dropout noise added only in training mode. -/
def forward (m : HFModel) (pixel_values : List ℚ) (rng : Nat) : List ℚ :=
  (List.range (numLabels m)).map (fun (i : Nat) =>
    (pixel_values.map (fun v => v * ((i : ℚ) + 1))).sum +
      paramSig m.params * ((i : ℚ) + 1) +
      (if m.training then dropoutNoise rng i else 0))

/-- `get_base_model(label2id, id2label)`: loads the checkpoint with a head
sized by the mappings, in evaluation mode. -/
def get_base_model (label2id : List (String × Nat)) (id2label : List (Nat × String)) :
    HFModel :=
  { config := { label2id := label2id, id2label := id2label }
    params := backboneParams id2label.length
    training := false }

/-- `build_lora_model(label2id, id2label)`: the base model wrapped by
`get_peft_model` with the notebook's `lora_config`. -/
def build_lora_model (label2id : List (String × Nat)) (id2label : List (Nat × String)) :
    HFModel :=
  let base := get_base_model label2id id2label
  { base with params := get_peft_model base.params lora_config }

/-- `build_inference_model(label2id, id2label, lora_adapter_path)`: the base
model with the trained adapter weights loaded from the given path
(`PeftModel.from_pretrained`); the filesystem contents are abstracted as a
map from paths to parameter lists.  The result stays in evaluation mode. -/
def build_inference_model (label2id : List (String × Nat))
    (id2label : List (Nat × String)) (lora_adapter_path : String)
    (store : String → List Param) : HFModel :=
  let base := get_base_model label2id id2label
  { base with params := base.params ++ store lora_adapter_path }

/-- `predict(image, model, image_processor)`: converts the image to RGB,
encodes it, runs one forward pass with gradients disabled, and looks the
argmax index up in the model configuration's `id2label`.  The `rng`
argument is the state of the (unused at evaluation time) dropout
randomness. -/
def predict (image : Image) (model : HFModel) (image_processor : ImageProcessor)
    (rng : Nat) : Option String :=
  let encoding := processorEncode image_processor (convertRGB image)
  let logits := forward model encoding rng
  dget? model.config.id2label (argmaxIdx logits)

/-- C3: for a fixed image, a fixed composed model (a fixed trained adapter
attached to the backbone via `build_inference_model`, which loads in
evaluation mode) and a fixed image processor, any two calls of `predict`
return the identical predicted label: the forward pass at inference is
deterministic, whatever the state of the dropout randomness. -/
theorem predict_deterministic (label2id : List (String × Nat))
    (id2label : List (Nat × String)) (path : String) (store : String → List Param)
    (img : Image) (proc : ImageProcessor) (rng₁ rng₂ : Nat) :
    predict img (build_inference_model label2id id2label path store) proc rng₁ =
      predict img (build_inference_model label2id id2label path store) proc rng₂ := by
  simp [predict, forward, build_inference_model, get_base_model]

/-- C2: for every image and every composed inference model whose head is
sized by a task's `id2label` mapping (as produced by
`create_label_mappings`), `predict` returns the label at the argmax of the
logits, this logit is maximal, and the returned label belongs to that task's
label set and never to a label set disjoint from it. -/
theorem predict_returns_argmax_label (names otherLabels : List String)
    (m : HFModel) (img : Image) (proc : ImageProcessor) (rng : Nat)
    (hm : m.config.id2label = (create_label_mappings names).2)
    (hne : names ≠ [])
    (hdisj : ∀ s ∈ names, s ∉ otherLabels) :
    predict img m proc rng =
      names.get? (argmaxIdx (forward m (processorEncode proc (convertRGB img)) rng)) ∧
    argmaxIdx (forward m (processorEncode proc (convertRGB img)) rng) < names.length ∧
    (∀ v ∈ forward m (processorEncode proc (convertRGB img)) rng,
        v ≤ (forward m (processorEncode proc (convertRGB img)) rng).getD
              (argmaxIdx (forward m (processorEncode proc (convertRGB img)) rng)) 0) ∧
    (∀ lbl, predict img m proc rng = some lbl → lbl ∈ names ∧ lbl ∉ otherLabels) := by
  have hlen : (forward m (processorEncode proc (convertRGB img)) rng).length =
      names.length := by
    simp [forward, numLabels, hm, create_label_mappings_snd]
  have hfne : forward m (processorEncode proc (convertRGB img)) rng ≠ [] := by
    intro hnil
    have h0 : names.length = 0 := by rw [← hlen, hnil]; rfl
    exact hne (List.length_eq_zero.mp h0)
  have heq : predict img m proc rng =
      names.get? (argmaxIdx (forward m (processorEncode proc (convertRGB img)) rng)) := by
    simp only [predict]
    rw [hm, create_label_mappings_snd, dget?_enum]
  have hlt : argmaxIdx (forward m (processorEncode proc (convertRGB img)) rng) <
      names.length := by
    rw [← hlen]
    exact argmaxIdx_lt_length _ hfne
  refine ⟨heq, hlt, argmaxIdx_is_max _ hfne, ?_⟩
  intro lbl hlbl
  rw [heq] at hlbl
  have hmem : lbl ∈ names := List.get?_mem hlbl
  exact ⟨hmem, hdisj lbl hmem⟩

/-- Witness for C2: a concrete cats/dogs inference model on a concrete
greyscale image, with a food label disjoint from the task's label set. -/
theorem predict_returns_argmax_label_witness :
    predict ⟨ImageMode.L, [3, 5]⟩
        (build_inference_model (create_label_mappings ["cat", "dog"]).1
          (create_label_mappings ["cat", "dog"]).2 ("./lora-model2") (fun _ => []))
        ⟨2, 0, 1⟩ 0 =
      (["cat", "dog"] : List String).get?
        (argmaxIdx (forward
          (build_inference_model (create_label_mappings ["cat", "dog"]).1
            (create_label_mappings ["cat", "dog"]).2 ("./lora-model2") (fun _ => []))
          (processorEncode ⟨2, 0, 1⟩ (convertRGB ⟨ImageMode.L, [3, 5]⟩)) 0)) ∧
    argmaxIdx (forward
        (build_inference_model (create_label_mappings ["cat", "dog"]).1
          (create_label_mappings ["cat", "dog"]).2 ("./lora-model2") (fun _ => []))
        (processorEncode ⟨2, 0, 1⟩ (convertRGB ⟨ImageMode.L, [3, 5]⟩)) 0) <
      (["cat", "dog"] : List String).length ∧
    (∀ v ∈ forward
        (build_inference_model (create_label_mappings ["cat", "dog"]).1
          (create_label_mappings ["cat", "dog"]).2 ("./lora-model2") (fun _ => []))
        (processorEncode ⟨2, 0, 1⟩ (convertRGB ⟨ImageMode.L, [3, 5]⟩)) 0,
        v ≤ (forward
              (build_inference_model (create_label_mappings ["cat", "dog"]).1
                (create_label_mappings ["cat", "dog"]).2 ("./lora-model2") (fun _ => []))
              (processorEncode ⟨2, 0, 1⟩ (convertRGB ⟨ImageMode.L, [3, 5]⟩)) 0).getD
            (argmaxIdx (forward
              (build_inference_model (create_label_mappings ["cat", "dog"]).1
                (create_label_mappings ["cat", "dog"]).2 ("./lora-model2") (fun _ => []))
              (processorEncode ⟨2, 0, 1⟩ (convertRGB ⟨ImageMode.L, [3, 5]⟩)) 0)) 0) ∧
    (∀ lbl, predict ⟨ImageMode.L, [3, 5]⟩
        (build_inference_model (create_label_mappings ["cat", "dog"]).1
          (create_label_mappings ["cat", "dog"]).2 ("./lora-model2") (fun _ => []))
        ⟨2, 0, 1⟩ 0 = some lbl →
        lbl ∈ (["cat", "dog"] : List String) ∧
          lbl ∉ (["baked_chicken", "pizza"] : List String)) :=
  predict_returns_argmax_label ["cat", "dog"] ["baked_chicken", "pizza"]
    (build_inference_model (create_label_mappings ["cat", "dog"]).1
      (create_label_mappings ["cat", "dog"]).2 ("./lora-model2") (fun _ => []))
    ⟨ImageMode.L, [3, 5]⟩ ⟨2, 0, 1⟩ 0 rfl (by decide) (by decide)

/-- C10: both public image entry points accept PIL images of any mode:
`predict` first applies `image.convert("RGB")`, so it agrees on an image and
on its RGB conversion, the training-time `preprocess` transform likewise
converts before encoding, and the conversion always yields an RGB image (so
greyscale and RGBA inputs are handled without error). -/
theorem predict_convert_rgb_agnostic (img : Image) (m : HFModel)
    (proc p : ImageProcessor) (rng : Nat) :
    predict img m proc rng = predict (convertRGB img) m proc rng ∧
    preprocess p [img] = preprocess p [convertRGB img] ∧
    (convertRGB img).mode = ImageMode.RGB := by
  refine ⟨?_, ?_, convertRGB_mode img⟩
  · simp only [predict, convertRGB_idem]
  · simp only [preprocess, List.map_cons, List.map_nil, convertRGB_idem]

/-- Is the module one of the backbone's own modules (as opposed to an
injected low-rank adapter module)? -/
def baseModule : ModuleName → Bool
  | ModuleName.loraA _ => false
  | ModuleName.loraB _ => false
  | _ => true

/-- Is the module a query or value attention projection? -/
def isQV : ModuleName → Bool
  | ModuleName.query _ => true
  | ModuleName.value _ => true
  | _ => false

/-- Is the module a low-rank adapter factor attached to a query or value
attention projection? -/
def isAdapterOnQV : ModuleName → Bool
  | ModuleName.loraA b => isQV b
  | ModuleName.loraB b => isQV b
  | _ => false

theorem mem_vitLayerParams (i : Nat) (p : Param) (hp : p ∈ vitLayerParams i) :
    baseModule p.module = true ∧
    (matchesAny lora_config.modules_to_save p.module = true ↔
      p.module = ModuleName.classifier) ∧
    (p.kind = "weight" → matchesAny lora_config.target_modules p.module = true →
      isQV p.module = true ∧ p.shape = [768, 768]) := by
  simp only [vitLayerParams, List.mem_cons, List.not_mem_nil, or_false] at hp
  rcases hp with rfl | rfl | rfl | rfl | rfl | rfl | rfl | rfl | rfl | rfl | rfl | rfl |
    rfl | rfl | rfl | rfl <;>
    simp [baseModule, isQV, matchesAny, lastComponent, lora_config]

theorem mem_backboneParams (n : Nat) (p : Param) (hp : p ∈ backboneParams n) :
    baseModule p.module = true ∧
    (matchesAny lora_config.modules_to_save p.module = true ↔
      p.module = ModuleName.classifier) ∧
    (p.kind = "weight" → matchesAny lora_config.target_modules p.module = true →
      isQV p.module = true ∧ p.shape = [768, 768]) := by
  simp only [backboneParams, List.append_assoc, List.mem_append, List.mem_cons,
    List.not_mem_nil, or_false, List.mem_flatMap, List.mem_range] at hp
  rcases hp with (rfl | rfl | rfl | rfl) | ⟨i, _, hmem⟩ | rfl | rfl | rfl | rfl <;>
    first
      | exact mem_vitLayerParams _ p (by assumption)
      | simp [baseModule, isQV, matchesAny, lastComponent, lora_config]

theorem get_peft_model_trainable (n : Nat) (p : Param)
    (hp : p ∈ get_peft_model (backboneParams n) lora_config) :
    (p.grad = true ↔
      (baseModule p.module = false ∨ p.module = ModuleName.classifier)) ∧
    (baseModule p.module = false →
      isAdapterOnQV p.module = true ∧
        (p.shape = [16, 768] ∨ p.shape = [768, 16])) := by
  simp only [get_peft_model, List.mem_append, List.mem_map, List.mem_filter,
    List.mem_flatMap] at hp
  rcases hp with ⟨q, hq, rfl⟩ | ⟨q, ⟨hq, hq2⟩, hmem⟩
  · obtain ⟨hbase, hsave, _⟩ := mem_backboneParams n q hq
    refine ⟨?_, ?_⟩
    · simpa [hbase] using hsave
    · intro hfalse
      simp only at hfalse
      rw [hbase] at hfalse
      exact absurd hfalse (by simp)
  · simp only [Bool.and_eq_true, beq_iff_eq] at hq2
    obtain ⟨hk, ht⟩ := hq2
    obtain ⟨_, _, hqv⟩ := mem_backboneParams n q hq
    obtain ⟨hqv1, hqv2⟩ := hqv hk ht
    simp only [loraPair, lora_config, List.mem_cons, List.not_mem_nil, or_false] at hmem
    rcases hmem with rfl | rfl <;>
      simp [baseModule, isAdapterOnQV, hqv1, hqv2]

/-- The modules of the injected adapter parameters of a model, in order. -/
def adapterModules (m : HFModel) : List ModuleName :=
  (m.params.filter (fun p => !baseModule p.module)).map (fun p => p.module)

/-- One low-rank pair on the query projection and one on the value
projection of each of the 12 encoder layers. -/
def expectedLoraModules : List ModuleName :=
  (List.range 12).flatMap (fun i =>
    [ModuleName.loraA (ModuleName.query i), ModuleName.loraB (ModuleName.query i),
     ModuleName.loraA (ModuleName.value i), ModuleName.loraB (ModuleName.value i)])

/-- C6: for every pair of label mappings, `build_lora_model` produces a model
whose low-rank adapter (rank 16, scaling factor 16, dropout 0.1) is attached
exactly to the query and value attention weight matrices of the 12 layers,
whose classifier head is fully trainable, and whose every other backbone
weight is frozen: the trainable parameters are exactly the adapter matrices
plus the classifier head. -/
theorem build_lora_model_trainable_set (label2id : List (String × Nat))
    (id2label : List (Nat × String)) :
    lora_config.r = 16 ∧ lora_config.lora_alpha = 16 ∧
    lora_config.lora_dropout = 1 / 10 ∧
    lora_config.target_modules = ["query", "value"] ∧
    (∀ p ∈ (build_lora_model label2id id2label).params,
      (p.grad = true ↔
        (baseModule p.module = false ∨ p.module = ModuleName.classifier)) ∧
      (baseModule p.module = false →
        isAdapterOnQV p.module = true ∧
          (p.shape = [16, 768] ∨ p.shape = [768, 16]))) ∧
    adapterModules (build_lora_model label2id id2label) = expectedLoraModules := by
  refine ⟨rfl, rfl, rfl, rfl, ?_, ?_⟩
  · intro p hp
    exact get_peft_model_trainable id2label.length p hp
  · rfl

/-- Witness for C6 at a concrete one-class label mapping. -/
theorem build_lora_model_trainable_set_witness :
    lora_config.r = 16 ∧ lora_config.lora_alpha = 16 ∧
    lora_config.lora_dropout = 1 / 10 ∧
    lora_config.target_modules = ["query", "value"] ∧
    (∀ p ∈ (build_lora_model [("a", 0)] [(0, "a")]).params,
      (p.grad = true ↔
        (baseModule p.module = false ∨ p.module = ModuleName.classifier)) ∧
      (baseModule p.module = false →
        isAdapterOnQV p.module = true ∧
          (p.shape = [16, 768] ∨ p.shape = [768, 16]))) ∧
    adapterModules (build_lora_model [("a", 0)] [(0, "a")]) = expectedLoraModules :=
  build_lora_model_trainable_set [("a", 0)] [(0, "a")]

/-- One entry of the notebook's `config` dictionary: a dataset's train and
test splits (records of an image and an integer label), its label mappings,
the epoch count, and the output path for the trained adapter. -/
structure TaskConfig where
  train_data : List (Image × Nat)
  test_data : List (Image × Nat)
  label2id : List (String × Nat)
  id2label : List (Nat × String)
  epochs : Nat
  path : String
deriving DecidableEq

/-- The notebook's `config` map, parametrised by the two loaded datasets:
their train/test splits and their class-name lists (food101 for `model1`,
cats versus dogs for `model2`). -/
def mkConfig (d1train d1test d2train d2test : List (Image × Nat))
    (names1 names2 : List String) : List (String × TaskConfig) :=
  [("model1",
    { train_data := d1train
      test_data := d1test
      label2id := (create_label_mappings names1).1
      id2label := (create_label_mappings names1).2
      epochs := 5
      path := "./lora-model1" }),
   ("model2",
    { train_data := d2train
      test_data := d2test
      label2id := (create_label_mappings names2).1
      id2label := (create_label_mappings names2).2
      epochs := 1
      path := "./lora-model2" })]

/-- Model weights are persisted as 32-bit floats: four bytes per element. -/
def bytesPerParam : Nat := 4

/-- On-disk size of a serialised list of parameter tensors.  The external
serialisation format stores the raw tensor data (plus a negligible header),
so the size is modelled as four bytes per element. -/
def diskBytes (ps : List Param) : Nat := bytesPerParam * ((ps.map Param.numel).sum)

/-- `trainer.save_model(cfg["path"])` on a `peft` model persists the adapter
weights together with the `modules_to_save` classifier copy: exactly the
trainable parameters of the model. -/
def savedParams (m : HFModel) : List Param := m.params.filter (fun p => p.grad)

/-- On-disk size of the frozen `google/vit-base-patch16-224-in21k`
checkpoint: the full backbone without a classification head (the notebook
reinitialises the head via `ignore_mismatched_sizes=True`, so the hub
checkpoint carries none at the sizes used here). -/
def hubBackboneBytes : Nat :=
  diskBytes ((backboneParams 0).filter
    (fun p => !(p.module == ModuleName.classifier)))

theorem savedParams_build_lora_model (label2id : List (String × Nat))
    (id2label : List (Nat × String)) :
    savedParams (build_lora_model label2id id2label) =
      (get_peft_model (backboneParams id2label.length) lora_config).filter
        (fun p => p.grad) := rfl

/-- C8: for every task of the configuration map (food101 has 101 classes,
cats versus dogs has 2), the trained artifact saved at the task's path — the
adapter weights plus the classifier head, i.e. the trainable parameters of
the task's LoRA model — has an on-disk size strictly smaller than the frozen
backbone checkpoint's on-disk size. -/
theorem artifact_smaller_than_backbone (d1train d1test d2train d2test : List (Image × Nat))
    (names1 names2 : List String) (h1 : names1.length = 101) (h2 : names2.length = 2)
    (task : String) (cfg : TaskConfig)
    (hmem : (task, cfg) ∈ mkConfig d1train d1test d2train d2test names1 names2) :
    diskBytes (savedParams (build_lora_model cfg.label2id cfg.id2label)) <
      hubBackboneBytes := by
  have key : ∀ n : Nat, n = 101 ∨ n = 2 →
      diskBytes ((get_peft_model (backboneParams n) lora_config).filter
        (fun p => p.grad)) < hubBackboneBytes := by
    rintro n (rfl | rfl) <;> decide
  simp only [mkConfig, List.mem_cons, List.not_mem_nil, or_false,
    Prod.mk.injEq] at hmem
  rcases hmem with ⟨-, rfl⟩ | ⟨-, rfl⟩
  · have hl : ((create_label_mappings names1).2).length = 101 := by
      rw [create_label_mappings_snd, List.enum_length, h1]
    rw [savedParams_build_lora_model]
    simp only
    rw [hl]
    exact key 101 (Or.inl rfl)
  · have hl : ((create_label_mappings names2).2).length = 2 := by
      rw [create_label_mappings_snd, List.enum_length, h2]
    rw [savedParams_build_lora_model]
    simp only
    rw [hl]
    exact key 2 (Or.inr rfl)

/-- Witness for C8 at a concrete 101-class and a concrete 2-class label
list. -/
theorem artifact_smaller_than_backbone_witness :
    diskBytes (savedParams (build_lora_model
      (create_label_mappings ((List.range 101).map (fun i => toString i))).1
      (create_label_mappings ((List.range 101).map (fun i => toString i))).2)) <
      hubBackboneBytes :=
  artifact_smaller_than_backbone [] [] [] []
    ((List.range 101).map (fun i => toString i)) ["cat", "dog"]
    (by simp) (by decide) ("model1")
    { train_data := []
      test_data := []
      label2id := (create_label_mappings ((List.range 101).map (fun i => toString i))).1
      id2label := (create_label_mappings ((List.range 101).map (fun i => toString i))).2
      epochs := 5
      path := "./lora-model1" }
    (List.Mem.head _)

/-- The model the training loop builds for a task: the loop body reads
`cfg["label2id"]` and `cfg["id2label"]` and calls `build_lora_model`. -/
def trainingModelFor (cfg : TaskConfig) : HFModel :=
  build_lora_model cfg.label2id cfg.id2label

/-- The model the inference loop builds for a task: the loop body reads
`cfg["label2id"]`, `cfg["id2label"]` and `cfg["path"]` of the same config
entry and calls `build_inference_model`. -/
def inferenceModelFor (cfg : TaskConfig) (store : String → List Param) : HFModel :=
  build_inference_model cfg.label2id cfg.id2label cfg.path store

/-- C1: for every task in the configuration map, the `label2id` and
`id2label` mappings passed to `build_inference_model` (and recorded in the
composed model's configuration) are identical to the mappings passed to
`build_lora_model` for that task's training model: both loops read the same
fields of the same config entry. -/
theorem label_mappings_train_inference_agree
    (d1train d1test d2train d2test : List (Image × Nat))
    (names1 names2 : List String) (store : String → List Param)
    (task : String) (cfg : TaskConfig)
    (_hmem : (task, cfg) ∈ mkConfig d1train d1test d2train d2test names1 names2) :
    (inferenceModelFor cfg store).config.label2id =
        (trainingModelFor cfg).config.label2id ∧
    (inferenceModelFor cfg store).config.id2label =
        (trainingModelFor cfg).config.id2label :=
  ⟨rfl, rfl⟩

/-- Witness for C1 at a concrete configuration map. -/
theorem label_mappings_train_inference_agree_witness :
    (inferenceModelFor
        { train_data := []
          test_data := []
          label2id := (create_label_mappings ["pizza", "sushi"]).1
          id2label := (create_label_mappings ["pizza", "sushi"]).2
          epochs := 5
          path := "./lora-model1" } (fun _ => [])).config.label2id =
      (trainingModelFor
        { train_data := []
          test_data := []
          label2id := (create_label_mappings ["pizza", "sushi"]).1
          id2label := (create_label_mappings ["pizza", "sushi"]).2
          epochs := 5
          path := "./lora-model1" }).config.label2id ∧
    (inferenceModelFor
        { train_data := []
          test_data := []
          label2id := (create_label_mappings ["pizza", "sushi"]).1
          id2label := (create_label_mappings ["pizza", "sushi"]).2
          epochs := 5
          path := "./lora-model1" } (fun _ => [])).config.id2label =
      (trainingModelFor
        { train_data := []
          test_data := []
          label2id := (create_label_mappings ["pizza", "sushi"]).1
          id2label := (create_label_mappings ["pizza", "sushi"]).2
          epochs := 5
          path := "./lora-model1" }).config.id2label :=
  label_mappings_train_inference_agree [] [] [] [] ["pizza", "sushi"] ["cat", "dog"]
    (fun _ => []) ("model1")
    { train_data := []
      test_data := []
      label2id := (create_label_mappings ["pizza", "sushi"]).1
      id2label := (create_label_mappings ["pizza", "sushi"]).2
      epochs := 5
      path := "./lora-model1" }
    (List.Mem.head _)

/-- The `TrainingArguments` record of the notebook. -/
structure TrainingArguments where
  output_dir : String
  remove_unused_columns : Bool
  eval_strategy : String
  save_strategy : String
  learning_rate : ℚ
  per_device_train_batch_size : Nat
  per_device_eval_batch_size : Nat
  gradient_accumulation_steps : Nat
  fp16 : Bool
  logging_steps : Nat
  load_best_model_at_end : Bool
  metric_for_best_model : String
  label_names : List String
  num_train_epochs : Nat
deriving DecidableEq

def batch_size : Nat := 128

/-- The `training_arguments` object built once before the training loop.
`num_train_epochs` is not set in this cell, so it initially holds the
trainer's default of 3 epochs; the loop overwrites it per task. -/
def training_arguments : TrainingArguments :=
  { output_dir := "./model-checkpoints"
    remove_unused_columns := false
    eval_strategy := "epoch"
    save_strategy := "epoch"
    learning_rate := 5 / 1000
    per_device_train_batch_size := batch_size
    per_device_eval_batch_size := batch_size
    gradient_accumulation_steps := 4
    fp16 := true
    logging_steps := 10
    load_best_model_at_end := true
    metric_for_best_model := "accuracy"
    label_names := ["labels"]
    num_train_epochs := 3 }

/-- The training loop's handling of the single shared mutable
`training_arguments` object: each iteration assigns
`training_arguments.num_train_epochs = cfg["epochs"]` on that same object
and hands it to the `Trainer`.  The returned list collects the argument
object as each task's run sees it; the mutated object is threaded into the
next iteration. -/
def trainLoopArgs : TrainingArguments → List Nat → List TrainingArguments
  | _, [] => []
  | args, e :: rest =>
      { args with num_train_epochs := e } ::
        trainLoopArgs { args with num_train_epochs := e } rest

/-- C9: a single mutable `TrainingArguments` object is shared by both tasks'
training runs, and the per-task loop mutates only its `num_train_epochs`
field (5 for the first task, 1 for the second); every other training setting
— batch size 128, gradient accumulation 4, learning rate 5e-3, fp16,
best-model selection by accuracy — is unchanged between the two runs. -/
theorem training_arguments_only_epochs_mutated
    (d1train d1test d2train d2test : List (Image × Nat))
    (names1 names2 : List String) :
    trainLoopArgs training_arguments
        ((mkConfig d1train d1test d2train d2test names1 names2).map
          (fun t => t.2.epochs)) =
      [{ training_arguments with num_train_epochs := 5 },
       { training_arguments with num_train_epochs := 1 }] ∧
    ∀ a ∈ trainLoopArgs training_arguments
        ((mkConfig d1train d1test d2train d2test names1 names2).map
          (fun t => t.2.epochs)),
      { a with num_train_epochs := training_arguments.num_train_epochs } =
          training_arguments ∧
      a.per_device_train_batch_size = 128 ∧
      a.per_device_eval_batch_size = 128 ∧
      a.gradient_accumulation_steps = 4 ∧
      a.learning_rate = 5 / 1000 ∧
      a.fp16 = true ∧
      a.load_best_model_at_end = true ∧
      a.metric_for_best_model = "accuracy" := by
  refine ⟨rfl, ?_⟩
  intro a ha
  have h : trainLoopArgs training_arguments
      ((mkConfig d1train d1test d2train d2test names1 names2).map
        (fun t => t.2.epochs)) =
      [{ training_arguments with num_train_epochs := 5 },
       { training_arguments with num_train_epochs := 1 }] := rfl
  rw [h] at ha
  rcases List.mem_cons.mp ha with rfl | ha2
  · exact ⟨rfl, rfl, rfl, rfl, rfl, rfl, rfl, rfl⟩
  rcases List.mem_cons.mp ha2 with rfl | ha3
  · exact ⟨rfl, rfl, rfl, rfl, rfl, rfl, rfl, rfl⟩
  exact absurd ha3 (List.not_mem_nil a)

/-- Witness for C9 at a concrete configuration map. -/
theorem training_arguments_only_epochs_mutated_witness :
    trainLoopArgs training_arguments
        ((mkConfig [] [] [] [] ["pizza"] ["cat"]).map (fun t => t.2.epochs)) =
      [{ training_arguments with num_train_epochs := 5 },
       { training_arguments with num_train_epochs := 1 }] ∧
    ∀ a ∈ trainLoopArgs training_arguments
        ((mkConfig [] [] [] [] ["pizza"] ["cat"]).map (fun t => t.2.epochs)),
      { a with num_train_epochs := training_arguments.num_train_epochs } =
          training_arguments ∧
      a.per_device_train_batch_size = 128 ∧
      a.per_device_eval_batch_size = 128 ∧
      a.gradient_accumulation_steps = 4 ∧
      a.learning_rate = 5 / 1000 ∧
      a.fp16 = true ∧
      a.load_best_model_at_end = true ∧
      a.metric_for_best_model = "accuracy" :=
  training_arguments_only_epochs_mutated [] [] [] [] ["pizza"] ["cat"]

/-- `dataset.train_test_split(test_size=0.1)` from the external datasets
library: the records are randomly permuted, the first ceiling of
`test_size` times the record count of them become the test split and the
remaining records the train split.  The randomness is modelled by passing
the permuted record list explicitly. -/
def train_test_split {α : Type} (shuffled : List α) (test_size : ℚ) :
    List α × List α :=
  let nTest := (⌈test_size * (shuffled.length : ℚ)⌉).toNat
  (shuffled.drop nTest, shuffled.take nTest)

/-- `split_dataset(dataset)` from the notebook: the randomized 90/10 split,
returning the train and the test split in this order. -/
def split_dataset {α : Type} (shuffled : List α) : List α × List α :=
  train_test_split shuffled (1 / 10)

/-- C5: for every dataset (of a size divisible by ten, as both datasets of
the notebook are), `split_dataset` performs a randomized 90/10 train/test
split: the returned train and test splits together partition the input
records, the test split holds 10 percent of the records, and the train
split holds the remaining 90 percent. -/
theorem split_dataset_partition_90_10 {α : Type} (dataset shuffled : List α)
    (hperm : shuffled.Perm dataset) (hdvd : 10 ∣ dataset.length) :
    ((split_dataset shuffled).1 ++ (split_dataset shuffled).2).Perm dataset ∧
    (split_dataset shuffled).2.length = dataset.length / 10 ∧
    (split_dataset shuffled).1.length = dataset.length - dataset.length / 10 ∧
    (split_dataset shuffled).1.length = 9 * (dataset.length / 10) := by
  obtain ⟨k, hk⟩ := hdvd
  have hlen : shuffled.length = dataset.length := hperm.length_eq
  have hceil : (⌈(1 / 10 : ℚ) * (shuffled.length : ℚ)⌉).toNat = k := by
    rw [hlen, hk]
    push_cast
    rw [show (1 / 10 : ℚ) * (10 * (k : ℚ)) = (k : ℚ) by ring]
    simp
  have hsplit : split_dataset shuffled = (shuffled.drop k, shuffled.take k) := by
    simp only [split_dataset, train_test_split, hceil]
  rw [hsplit]
  refine ⟨?_, ?_, ?_, ?_⟩
  · exact (List.perm_append_comm.trans
      (by rw [List.take_append_drop] : (shuffled.take k ++ shuffled.drop k).Perm shuffled)).trans hperm
  · simp only [List.length_take, hlen, hk]
    omega
  · simp only [List.length_drop, hlen, hk]
    omega
  · simp only [List.length_drop, hlen, hk]
    omega

/-- Witness for C5 on a ten-record dataset and a concrete shuffle of it. -/
theorem split_dataset_partition_90_10_witness :
    ((split_dataset [5, 6, 7, 8, 9, 0, 1, 2, 3, 4]).1 ++
        (split_dataset [5, 6, 7, 8, 9, 0, 1, 2, 3, 4]).2).Perm
      [0, 1, 2, 3, 4, 5, 6, 7, 8, 9] ∧
    (split_dataset ([5, 6, 7, 8, 9, 0, 1, 2, 3, 4] : List Nat)).2.length =
      ([0, 1, 2, 3, 4, 5, 6, 7, 8, 9] : List Nat).length / 10 ∧
    (split_dataset ([5, 6, 7, 8, 9, 0, 1, 2, 3, 4] : List Nat)).1.length =
      ([0, 1, 2, 3, 4, 5, 6, 7, 8, 9] : List Nat).length -
        ([0, 1, 2, 3, 4, 5, 6, 7, 8, 9] : List Nat).length / 10 ∧
    (split_dataset ([5, 6, 7, 8, 9, 0, 1, 2, 3, 4] : List Nat)).1.length =
      9 * (([0, 1, 2, 3, 4, 5, 6, 7, 8, 9] : List Nat).length / 10) :=
  split_dataset_partition_90_10 [0, 1, 2, 3, 4, 5, 6, 7, 8, 9]
    [5, 6, 7, 8, 9, 0, 1, 2, 3, 4] (by decide) (by decide)

/-- `compute_metrics(eval_pred)` from the notebook: takes the argmax of each
example's logits and delegates to the accuracy metric of the evaluation
library, which returns the fraction of predictions equal to the reference
labels. -/
def compute_metrics (predictions : List (List ℚ)) (label_ids : List Nat) : ℚ :=
  ((((predictions.map argmaxIdx).zip label_ids).countP
      (fun q => q.1 == q.2) : Nat) : ℚ) / ((label_ids.length : Nat) : ℚ)

/-- C7: for every non-empty batch of evaluation predictions (one row of
logits per reference label), `compute_metrics` returns the fraction of
examples whose argmax prediction equals the reference label, and this
accuracy lies in the interval from 0 to 1. -/
theorem compute_metrics_in_unit_interval (predictions : List (List ℚ))
    (label_ids : List Nat) (hlen : predictions.length = label_ids.length)
    (hne : label_ids ≠ []) :
    0 ≤ compute_metrics predictions label_ids ∧
    compute_metrics predictions label_ids ≤ 1 ∧
    compute_metrics predictions label_ids =
      ((((predictions.map argmaxIdx).zip label_ids).countP
          (fun q => q.1 == q.2) : Nat) : ℚ) / ((label_ids.length : Nat) : ℚ) := by
  have hpos : (0 : ℚ) < ((label_ids.length : Nat) : ℚ) := by
    have h0 : 0 < label_ids.length := List.length_pos.mpr hne
    exact_mod_cast h0
  have hcount : ((predictions.map argmaxIdx).zip label_ids).countP
      (fun q => q.1 == q.2) ≤ label_ids.length := by
    calc ((predictions.map argmaxIdx).zip label_ids).countP (fun q => q.1 == q.2) ≤
        ((predictions.map argmaxIdx).zip label_ids).length := List.countP_le_length _
      _ = min (predictions.map argmaxIdx).length label_ids.length := List.length_zip _ _
      _ = label_ids.length := by simp [hlen]
  refine ⟨?_, ?_, rfl⟩
  · exact div_nonneg (by positivity) (le_of_lt hpos)
  · rw [compute_metrics, div_le_one hpos]
    exact_mod_cast hcount

/-- Witness for C7 on a concrete two-example batch where the first argmax
matches its reference label and the second does not. -/
theorem compute_metrics_in_unit_interval_witness :
    0 ≤ compute_metrics [[1, 2], [3, 1]] [1, 0] ∧
    compute_metrics [[1, 2], [3, 1]] [1, 0] ≤ 1 ∧
    compute_metrics [[1, 2], [3, 1]] [1, 0] =
      (((([[1, 2], [3, 1]] : List (List ℚ)).map argmaxIdx).zip
          ([1, 0] : List Nat)).countP (fun q => q.1 == q.2) : Nat) /
        ((([1, 0] : List Nat).length : Nat) : ℚ) :=
  compute_metrics_in_unit_interval [[1, 2], [3, 1]] [1, 0] (by decide) (by decide)

end LoraViT
